import Mathlib

/-!
Shallow embedding of the certificate-validation service.

Sources embedded here (mock-storage / in-memory mode, which is the
executable semantics selected by USE_MOCK_STORAGE):
  * certificates.service.ts : verifyCertificate, CertificatesService
    (uploadCertificate, listCertificates, listProductCertificates,
    deleteCertificate, deleteProductCertificate) over the in-memory
    Map mockStorage;
  * communication.service.ts : CommunicationService.handleRequest;
  * server.ts : the HTTP handler branches for POST /certificates/upload
    and GET /certificates/:productId.

Nondeterministic / environmental inputs are passed as parameters:
the outcome of each network fetch, the generated certificate id
(Date.now()-random in the source), the current timestamp, and today's
date string.
-/

/-- A JavaScript `string | number` identifier argument, as accepted by
the CertificatesService operations.  Numbers are restricted to integers
(the identifiers the service is called with); `String(n)` on an integer
is its decimal representation. -/
inductive JsId where
  | str (s : String)
  | num (n : Int)
deriving DecidableEq

/-- JavaScript `String(x)` applied to a `string | number` value. -/
def jsIdString : JsId → String
  | JsId.str s => s
  | JsId.num n => toString n

/-- JavaScript string `<` on UTF-16 code units, restricted to BMP
strings where code units coincide with code points (all date strings
compared by the service are ASCII). -/
def jsCharsLt : List Char → List Char → Bool
  | [], [] => false
  | [], _ :: _ => true
  | _ :: _, [] => false
  | a :: as, b :: bs =>
    if a.val < b.val then true
    else if b.val < a.val then false
    else jsCharsLt as bs

/-- JavaScript string `<=` (`s <= t` iff not `t < s`, lexicographic). -/
def jsStrLe (s t : String) : Bool := !(jsCharsLt t.data s.data)

/-- One table cell of the registry response: a JSON string or JSON null
(`none`).  The ISCC table endpoint returns rows of strings. -/
abbrev RegCell := Option String

/-- One row of `responseJson.data`: either not an array (the
`if (!Array.isArray(row))` guard in verifyCertificate) or a list of
cells. -/
inductive RegRow where
  | notArray
  | cells (cs : List RegCell)
deriving DecidableEq

/-- The parsed body of the second (tabular-query) fetch, collapsed to
exactly the distinctions verifyCertificate makes: `badTop` covers a
falsy `responseJson` or a `responseJson.data` that is not an array;
`rows data` is a response whose `data` field is an array. -/
inductive RegResp where
  | badTop
  | rows (data : List RegRow)
deriving DecidableEq

/-- `row[i] ?? null` : out-of-range (undefined) and JSON null both
collapse to null (`none`). -/
def cellCoalesce (cs : List RegCell) (i : Nat) : Option String :=
  match cs.get? i with
  | some (some s) => some s
  | _ => none

/-- JavaScript `String(row[i])` : undefined stringifies to
`"undefined"`, null to `"null"`, a string to itself. -/
def cellJsString (cs : List RegCell) (i : Nat) : String :=
  match cs.get? i with
  | none => "undefined"
  | some none => "null"
  | some (some s) => s

/-- The tail of verifyCertificate (certificates.service.ts lines
76-100): shape guards on the parsed response, then the validity
computation over the first row.  `today` is
`new Date().toISOString().split("T")[0]`, `productId` is the search
term (upload passes `String(certificateId)` here). -/
def verifyFromResponse (today productId : String) : RegResp → Option String × Bool
  | RegResp.badTop => (none, false)
  | RegResp.rows [] => (none, false)
  | RegResp.rows (RegRow.notArray :: _) => (none, false)
  | RegResp.rows (RegRow.cells cs :: rest) =>
    let validUntil := cellCoalesce cs 8
    let validAfter := cellCoalesce cs 7
    let validCertificate :=
      match validUntil, validAfter with
      | some vu, some va =>
        jsStrLe today vu && jsStrLe va today &&
          (rest.length == 0) && (cellJsString cs 1 == productId)
      | _, _ => false
    (validUntil, validCertificate)

/-- verifyCertificate (certificates.service.ts lines 30-101).
`noncePage` is the outcome of the first fetch (the nonce-page scrape,
lines 38-41): it is NOT inside any try/catch, so its failure is an
uncaught rejection, embedded as `Except.error`.  `main` is the outcome
of the second fetch + JSON.parse (lines 61-73), whose failure IS caught
and mapped to `[null, false]`.  The nonce text itself only feeds the
query parameters, which are abstracted by `main`. -/
def verifyCertificate (noncePage : Except Unit String)
    (main : Except Unit RegResp) (today productId : String) :
    Except Unit (Option String × Bool) :=
  match noncePage with
  | Except.error _ => Except.error ()
  | Except.ok _ =>
    match main with
    | Except.error _ => Except.ok (none, false)
    | Except.ok resp => Except.ok (verifyFromResponse today productId resp)

/-- Certificate metadata record written by uploadCertificate
(certificates.service.ts lines 134-142, mock branch for bucketPath). -/
structure CertMeta where
  id : String
  bucketPath : String
  uploadedAt : String
  verified : Bool
  validUntil : Option String
deriving DecidableEq

/-- A product document: `{ productId, certificates }`. -/
structure Product where
  productId : String
  certificates : List CertMeta
deriving DecidableEq

/-- The in-memory `mockStorage : Map<string, any>`, as an insertion-
ordered association list (JavaScript Map preserves insertion order;
`set` on an existing key updates in place). -/
abbrev Store := List (String × Product)

/-- `Map.get` : first (unique, for a real Map) binding of the key. -/
def mapGet : Store → String → Option Product
  | [], _ => none
  | (k, v) :: rest, key => if k = key then some v else mapGet rest key

/-- `Map.set` : replace the binding in place if present, else append. -/
def mapSet : Store → String → Product → Store
  | [], key, v => [(key, v)]
  | (k, v') :: rest, key, v =>
    if k = key then (key, v) :: rest else (k, v') :: mapSet rest key v

/-- `Map.delete` : remove the binding of the key. -/
def mapDelete : Store → String → Store
  | [], _ => []
  | (k, v) :: rest, key =>
    if k = key then mapDelete rest key else (k, v) :: mapDelete rest key

/-- CertificatesService.uploadCertificate (lines 105-189), mock branch.
`verify` is the registry oracle: what verifyCertificate would return
for a given search term (`Except.error` = it threw; upload awaits it
OUTSIDE its try/catch, so a throw propagates).  `certId` stands for the
generated `Date.now()-random` id and `now` for
`new Date().toISOString()`.  The result is (outcome, new store, list of
registry search terms queried during the call); the file bytes are
never inspected in mock mode. -/
def uploadCertificate (verify : String → Except Unit (Option String × Bool))
    (certId now : String) (st : Store)
    (productId : JsId) (file : Option String) (certificateId : JsId) :
    Except Unit Bool × Store × List String :=
  let searchTerm := jsIdString certificateId
  match verify searchTerm with
  | Except.error e => (Except.error e, st, [searchTerm])
  | Except.ok (validUntil, validCertificate) =>
    if !validCertificate then (Except.ok false, st, [searchTerm])
    else
      let productIdStr := jsIdString productId
      let objectName := "certificates/" ++ productIdStr ++ "_" ++ certId ++ ".pdf"
      let certMeta : CertMeta :=
        { id := certId
          bucketPath := "mock://certificates/" ++ objectName
          uploadedAt := now
          verified := true
          validUntil := validUntil }
      let existing := (mapGet st productIdStr).getD
        { productId := productIdStr, certificates := [] }
      (Except.ok true,
       mapSet st productIdStr
         { existing with certificates := existing.certificates ++ [certMeta] },
       [searchTerm])

/-- CertificatesService.listCertificates (lines 192-221), mock branch:
`Array.from(mockStorage.values()).map(p => p.productId)`. -/
def listCertificates (st : Store) : List String :=
  st.map (fun e => e.snd.productId)

/-- CertificatesService.listProductCertificates (lines 224-257), mock
branch: `mockStorage.get(productIdStr) || { certificates: [] }` then
the certificates array. -/
def listProductCertificates (st : Store) (productId : JsId) : List CertMeta :=
  match mapGet st (jsIdString productId) with
  | some existing => existing.certificates
  | none => []

/-- CertificatesService.deleteCertificate (lines 261-319), mock branch:
deletes the whole product document and returns true (also on a missing
key, since `Map.delete` never throws). -/
def deleteCertificate (st : Store) (productId : JsId) : Bool × Store :=
  (true, mapDelete st (jsIdString productId))

/-- CertificatesService.deleteProductCertificate (lines 322-409), mock
branch: false when the product is absent or no certificate matches
`String(c.id) === String(certId)`; otherwise filters the matching ids
out, rewriting the document when certificates remain and deleting the
document when none do. -/
def deleteProductCertificate (st : Store) (productId : JsId) (certId : JsId) :
    Bool × Store :=
  let productIdStr := jsIdString productId
  match mapGet st productIdStr with
  | none => (false, st)
  | some existing =>
    match existing.certificates.find? (fun c => c.id == jsIdString certId) with
    | none => (false, st)
    | some _ =>
      let updated :=
        existing.certificates.filter (fun c => !(c.id == jsIdString certId))
      if updated.length > 0 then
        (true, mapSet st productIdStr { existing with certificates := updated })
      else
        (true, mapDelete st productIdStr)

/-- A response envelope built by CommunicationService.handleRequest:
an object literal with operationType and whichever result fields the
branch sets (`none` = the field is absent from the literal). -/
structure JsResponse where
  operationType : String
  status : Option Bool := none
  productId : Option String := none
  certificateId : Option String := none
  productIds : Option (List String) := none
  certificates : Option (List CertMeta) := none
  total : Option Nat := none
deriving DecidableEq

/-- CommunicationService.handleRequest (communication.service.ts lines
6-65).  Returns (outcome, new store): `Except.ok none` is the
fall-through of the switch (the function returns undefined),
`Except.error` a rejection propagated from uploadCertificate. -/
def handleRequest (verify : String → Except Unit (Option String × Bool))
    (certIdGen now : String) (st : Store)
    (requestType productId : String) (file : Option String)
    (certificateId : String) : Except Unit (Option JsResponse) × Store :=
  if requestType = "upload" then
    match uploadCertificate verify certIdGen now st
        (JsId.str productId) file (JsId.str certificateId) with
    | (Except.error e, st', _) => (Except.error e, st')
    | (Except.ok status, st', _) =>
      (Except.ok (some { operationType := "uploadResponse", status := some status }), st')
  else if requestType = "delete" then
    let r := deleteProductCertificate st (JsId.str productId) (JsId.str certificateId)
    (Except.ok (some { operationType := "deleteResponse", status := some r.1 }), r.2)
  else if requestType = "deleteProductCertificate" then
    let r := deleteProductCertificate st (JsId.str productId) (JsId.str certificateId)
    (Except.ok (some
      { operationType := "deleteProductCertificateResponse"
        productId := some productId
        certificateId := some certificateId
        status := some r.1 }), r.2)
  else if requestType = "list" then
    let productIds := listCertificates st
    (Except.ok (some
      { operationType := "listResponse"
        productIds := some productIds
        total := some productIds.length }), st)
  else if requestType = "listProductCertificates" then
    let certificates := listProductCertificates st (JsId.str productId)
    (Except.ok (some
      { operationType := "listProductCertificatesResponse"
        productId := some productId
        certificates := some certificates
        total := some certificates.length }), st)
  else (Except.ok none, st)

/-- The POST /certificates/upload branch of the HTTP server (server.ts
lines 112-150).  Body fields are JSON string values (`none` = absent or
null, which are falsy like `""`).  Result: ((HTTP status, success
flag), new store, registry search terms queried).  A rejection from the
service is caught by the handler's try/catch and mapped to 500. -/
def httpUploadRoute (verify : String → Except Unit (Option String × Bool))
    (certIdGen now : String) (st : Store)
    (productId file certificateId : Option String) :
    (Nat × Bool) × Store × List String :=
  match productId, file, certificateId with
  | some p, some f, some c =>
    if p = "" ∨ f = "" ∨ c = "" then ((400, false), st, [])
    else
      match uploadCertificate verify certIdGen now st
          (JsId.str p) (some f) (JsId.str c) with
      | (Except.error _, st', qs) => ((500, false), st', qs)
      | (Except.ok success, st', qs) =>
        ((if success then 200 else 400, success), st', qs)
  | _, _, _ => ((400, false), st, [])

/-- The GET /certificates/:productId branch of the HTTP server
(server.ts lines 160-180).  `productId` is the extracted path segment;
empty means missing (400, with an error body embedded as `none`);
otherwise the body is `{certificates}` with 200 when non-empty and 404
when empty. -/
def httpGetProductRoute (st : Store) (productId : String) :
    Nat × Option (List CertMeta) :=
  if productId = "" then (400, none)
  else
    let certificates := listProductCertificates st (JsId.str productId)
    (if certificates.length ≠ 0 then 200 else 404, some certificates)

/-- Invariant: no stored product document has an empty certificates
array. -/
def nonemptyInv (st : Store) : Prop :=
  ∀ e ∈ st, e.snd.certificates ≠ []

/-- Invariant: every stored certificate is marked verified. -/
def verifiedInv (st : Store) : Prop :=
  ∀ e ∈ st, ∀ c ∈ e.snd.certificates, c.verified = true

/-- Well-formedness: each document's productId field equals its map
key (every write in the source stores the document under
`String(productId)` with that same field). -/
def keyInv (st : Store) : Prop :=
  ∀ e ∈ st, e.snd.productId = e.fst

/-! ### Helper lemmas about the Map embedding -/

lemma mapGet_mem {st : Store} {k : String} {v : Product} :
    mapGet st k = some v → (k, v) ∈ st := by
  induction st with
  | nil => intro h; simp [mapGet] at h
  | cons hd tl ih =>
    intro h
    obtain ⟨k', v'⟩ := hd
    simp only [mapGet] at h
    by_cases hk : k' = k
    · rw [if_pos hk] at h
      subst hk
      cases h
      exact List.mem_cons_self _ _
    · rw [if_neg hk] at h
      exact List.mem_cons_of_mem _ (ih h)

lemma mem_mapSet_elim {st : Store} {k : String} {v : Product} {e : String × Product} :
    e ∈ mapSet st k v → e = (k, v) ∨ e ∈ st := by
  induction st with
  | nil =>
    intro h
    simp [mapSet] at h
    exact Or.inl h
  | cons hd tl ih =>
    intro h
    obtain ⟨k', v'⟩ := hd
    simp only [mapSet] at h
    by_cases hk : k' = k
    · rw [if_pos hk] at h
      rcases List.mem_cons.mp h with h | h
      · exact Or.inl h
      · exact Or.inr (List.mem_cons_of_mem _ h)
    · rw [if_neg hk] at h
      rcases List.mem_cons.mp h with h | h
      · exact Or.inr (h ▸ List.mem_cons_self _ _)
      · rcases ih h with h | h
        · exact Or.inl h
        · exact Or.inr (List.mem_cons_of_mem _ h)

lemma mem_mapDelete_elim {st : Store} {k : String} {e : String × Product} :
    e ∈ mapDelete st k → e ∈ st ∧ e.fst ≠ k := by
  induction st with
  | nil => intro h; simp [mapDelete] at h
  | cons hd tl ih =>
    intro h
    obtain ⟨k', v'⟩ := hd
    simp only [mapDelete] at h
    by_cases hk : k' = k
    · rw [if_pos hk] at h
      exact ⟨List.mem_cons_of_mem _ (ih h).1, (ih h).2⟩
    · rw [if_neg hk] at h
      rcases List.mem_cons.mp h with h | h
      · subst h
        exact ⟨List.mem_cons_self _ _, hk⟩
      · exact ⟨List.mem_cons_of_mem _ (ih h).1, (ih h).2⟩

lemma mapGet_mapSet_self (st : Store) (k : String) (v : Product) :
    mapGet (mapSet st k v) k = some v := by
  induction st with
  | nil => simp [mapSet, mapGet]
  | cons hd tl ih =>
    obtain ⟨k', v'⟩ := hd
    simp only [mapSet]
    by_cases hk : k' = k
    · rw [if_pos hk]
      simp [mapGet]
    · rw [if_neg hk]
      simp only [mapGet]
      rw [if_neg hk]
      exact ih

lemma mapGet_mapDelete_self (st : Store) (k : String) :
    mapGet (mapDelete st k) k = none := by
  induction st with
  | nil => simp [mapDelete, mapGet]
  | cons hd tl ih =>
    obtain ⟨k', v'⟩ := hd
    simp only [mapDelete]
    by_cases hk : k' = k
    · rw [if_pos hk]
      exact ih
    · rw [if_neg hk]
      simp only [mapGet]
      rw [if_neg hk]
      exact ih

lemma find?_filter_id_none (l : List CertMeta) (s : String) :
    (l.filter (fun c => !(c.id == s))).find? (fun c => c.id == s) = none := by
  induction l with
  | nil => rfl
  | cons c tl ih =>
    by_cases h : c.id = s
    · simp [List.filter_cons, h, ih]
    · simp only [List.filter_cons]
      have hb : (!(c.id == s)) = true := by simp [h]
      rw [if_pos hb]
      rw [List.find?_cons_of_neg _ (by simp [h])]
      exact ih

/-- C4: over every registry query response, the computed validity is
true iff exactly one row is returned, that row is an array whose
subject identifier (cell 1) stringifies to the queried identifier, and
today lies within [validFrom (cell 7), validUntil (cell 8)], both
present and both bounds inclusive; and the returned pair is otherwise
(null, false) or (validUntil, false) — its first component is always
null or the first row's validUntil cell. -/
theorem verify_validity_characterization (today q : String) (resp : RegResp) :
    ((verifyFromResponse today q resp).2 = true ↔
      ∃ cs vu va, resp = RegResp.rows [RegRow.cells cs] ∧
        cellCoalesce cs 8 = some vu ∧ cellCoalesce cs 7 = some va ∧
        jsStrLe today vu = true ∧ jsStrLe va today = true ∧
        cellJsString cs 1 = q) ∧
    ((verifyFromResponse today q resp).1 = none ∨
      ∃ cs rest, resp = RegResp.rows (RegRow.cells cs :: rest) ∧
        (verifyFromResponse today q resp).1 = cellCoalesce cs 8) := by
  cases resp with
  | badTop =>
    refine ⟨?_, Or.inl rfl⟩
    simp [verifyFromResponse]
  | rows data =>
    cases data with
    | nil =>
      refine ⟨?_, Or.inl rfl⟩
      simp [verifyFromResponse]
    | cons r rest =>
      cases r with
      | notArray =>
        refine ⟨?_, Or.inl rfl⟩
        simp [verifyFromResponse]
      | cells cs =>
        refine ⟨⟨?_, ?_⟩, Or.inr ⟨cs, rest, rfl, rfl⟩⟩
        · intro h
          rcases hvu : cellCoalesce cs 8 with _ | vu
          · exfalso
            simp [verifyFromResponse, hvu] at h
          · rcases hva : cellCoalesce cs 7 with _ | va
            · exfalso
              simp [verifyFromResponse, hvu, hva] at h
            · have h' : (jsStrLe today vu && jsStrLe va today &&
                  (rest.length == 0) && (cellJsString cs 1 == q)) = true := by
                have key : (verifyFromResponse today q
                    (RegResp.rows (RegRow.cells cs :: rest))).2
                    = (match cellCoalesce cs 8, cellCoalesce cs 7 with
                       | some vu, some va =>
                         jsStrLe today vu && jsStrLe va today &&
                           (rest.length == 0) && (cellJsString cs 1 == q)
                       | _, _ => false) := rfl
                rw [key, hvu, hva] at h
                exact h
              simp only [Bool.and_eq_true, beq_iff_eq] at h'
              obtain ⟨⟨⟨h1, h2⟩, h3⟩, h4⟩ := h'
              have hrest : rest = [] := List.length_eq_zero.mp h3
              subst hrest
              exact ⟨cs, vu, va, rfl, hvu, hva, h1, h2, h4⟩
        · rintro ⟨cs', vu, va, heq, h8, h7, hle1, hle2, hq⟩
          injection heq with hdata
          injection hdata with hhead htail
          injection hhead with hcs
          subst hcs
          subst htail
          simp [verifyFromResponse, h8, h7, hle1, hle2, hq]

/-- Witness for C4: a single-row response for certificate C-1 with
validFrom 2024-01-01 and validUntil 2999-01-01 is computed valid on
2025-06-15 (via the characterization), and its negative direction on
an empty-result response. -/
theorem verify_validity_characterization_witness :
    (verifyFromResponse "2025-06-15" "C-1"
      (RegResp.rows [RegRow.cells [some "ik", some "C-1", none, none, none,
        none, none, some "2024-01-01", some "2999-01-01"]])).2 = true ∧
    (verifyFromResponse "2025-06-15" "C-1" (RegResp.rows [])).2 ≠ true :=
  ⟨(verify_validity_characterization "2025-06-15" "C-1" _).1.mpr
    ⟨[some "ik", some "C-1", none, none, none, none, none,
      some "2024-01-01", some "2999-01-01"], "2999-01-01", "2024-01-01",
      rfl, rfl, rfl, by decide, by decide, rfl⟩,
   fun h => by
    have := (verify_validity_characterization "2025-06-15" "C-1" _).1.mp h
    obtain ⟨cs, vu, va, heq, _⟩ := this
    exact absurd heq (by simp)⟩

/-- C2 counterexample: a network failure of the FIRST fetch of
verifyCertificate (the nonce-page scrape, which is outside every
try/catch in the source) propagates as an exception to the caller
instead of yielding (null, false), refuting "never throws". -/
theorem verify_nonce_failure_throws :
    verifyCertificate (Except.error ()) (Except.ok RegResp.badTop)
      "2025-10-12" "CERT-1" = Except.error () ∧
    verifyCertificate (Except.error ()) (Except.ok RegResp.badTop)
      "2025-10-12" "CERT-1" ≠ Except.ok (none, false) :=
  ⟨rfl, fun h => Except.noConfusion h⟩

/-- C2 amended: once the initial nonce-page fetch has succeeded,
verifyCertificate never throws — every outcome of the second fetch
produces an `Except.ok` result — and a failed/unparseable second fetch,
a malformed response shape, or an empty result set each yield exactly
(null, false). -/
theorem verify_no_throw_after_nonce (noncePage : String)
    (main : Except Unit RegResp) (today q : String) :
    (∃ r, verifyCertificate (Except.ok noncePage) main today q = Except.ok r) ∧
    ((main = Except.error () ∨ main = Except.ok RegResp.badTop ∨
        main = Except.ok (RegResp.rows [])) →
      verifyCertificate (Except.ok noncePage) main today q
        = Except.ok (none, false)) := by
  constructor
  · cases main with
    | error e => exact ⟨(none, false), rfl⟩
    | ok resp => exact ⟨verifyFromResponse today q resp, rfl⟩
  · rintro (h | h | h) <;> subst h <;> rfl

/-- Witness for C2's amended theorem at a failed second fetch. -/
theorem verify_no_throw_after_nonce_witness :
    verifyCertificate (Except.ok "nonce-page") (Except.error ())
      "2025-10-12" "CERT-1" = Except.ok (none, false) :=
  (verify_no_throw_after_nonce "nonce-page" (Except.error ())
    "2025-10-12" "CERT-1").2 (Or.inl rfl)

/-- C1 counterexample: calling the store-level uploadCertificate with
all three arguments absent (empty product id, null file, empty
certificate id) still performs a registry verification query — the
trace of search terms is [""] rather than [] — refuting "returns false
without invoking the registry verification".  (The result is still
false here only because the oracle reports the certificate invalid.) -/
theorem upload_absent_args_queries_registry :
    uploadCertificate (fun _ => Except.ok (none, false)) "cert-1"
      "2025-10-12T00:00:00.000Z" [] (JsId.str "") none (JsId.str "")
      = (Except.ok false, [], [""]) ∧
    (uploadCertificate (fun _ => Except.ok (none, false)) "cert-1"
      "2025-10-12T00:00:00.000Z" [] (JsId.str "") none (JsId.str "")).2.2
      ≠ [] :=
  ⟨rfl, fun h => List.noConfusion h⟩

/-- C1 amended: the store-level uploadCertificate performs no
emptiness check and always queries the registry with
String(certificateId); whenever that verification reports invalid —
the expected outcome for an absent certificate id — it returns false
with the store unchanged (so list() gains no entry).  The
return-false-without-calling-the-registry short-circuit for absent
arguments exists only in the HTTP gateway, whose upload route answers
400/success=false without invoking the service (no registry query, no
store change) when any of the three body fields is missing or empty. -/
theorem upload_validation_amended :
    (∀ (verify : String → Except Unit (Option String × Bool))
        (certId now : String) (st : Store) (pid : JsId)
        (file : Option String) (cid : JsId) (vu : Option String),
      verify (jsIdString cid) = Except.ok (vu, false) →
        uploadCertificate verify certId now st pid file cid
          = (Except.ok false, st, [jsIdString cid])) ∧
    (∀ (verify : String → Except Unit (Option String × Bool))
        (certIdGen now : String) (st : Store)
        (productId file certificateId : Option String),
      (productId = none ∨ productId = some "" ∨ file = none ∨
          file = some "" ∨ certificateId = none ∨ certificateId = some "") →
        httpUploadRoute verify certIdGen now st productId file certificateId
          = ((400, false), st, [])) := by
  constructor
  · intro verify certId now st pid file cid vu h
    simp [uploadCertificate, h]
  · intro verify certIdGen now st productId file certificateId hyp
    rcases productId with _ | p
    · simp [httpUploadRoute]
    · rcases file with _ | f
      · simp [httpUploadRoute]
      · rcases certificateId with _ | c
        · simp [httpUploadRoute]
        · have hd : p = "" ∨ f = "" ∨ c = "" := by
            rcases hyp with h | h | h | h | h | h
            · exact absurd h (by simp)
            · exact Or.inl (Option.some.inj h)
            · exact absurd h (by simp)
            · exact Or.inr (Or.inl (Option.some.inj h))
            · exact absurd h (by simp)
            · exact Or.inr (Or.inr (Option.some.inj h))
          simp only [httpUploadRoute]
          rw [if_pos hd]

/-- Witness for C1's amended theorem: a registry-invalid upload leaves
the store unchanged, and an upload request missing its certificateId is
rejected by the gateway with 400 and no registry query. -/
theorem upload_validation_amended_witness :
    uploadCertificate (fun _ => Except.ok (some "2999-01-01", false))
      "g1" "t1" [] (JsId.str "p2") (some "f") (JsId.str "c2")
      = (Except.ok false, [], ["c2"]) ∧
    httpUploadRoute (fun _ => Except.ok (none, false)) "g1" "t1" []
      (some "p2") (some "f") none = ((400, false), [], []) :=
  ⟨upload_validation_amended.1 _ "g1" "t1" [] (JsId.str "p2") (some "f")
    (JsId.str "c2") (some "2999-01-01") rfl,
   upload_validation_amended.2 _ "g1" "t1" [] (some "p2") (some "f") none
    (Or.inr (Or.inr (Or.inr (Or.inr (Or.inl rfl)))))⟩

/-- C3 counterexample: a "delete" request is answered with an envelope
{operationType: "deleteResponse", status} that contains NO productId
and NO certificateId field, refuting the claim that both delete
operation types return {productId, certificateId, status}. -/
theorem dispatcher_delete_envelope_missing_fields :
    (handleRequest (fun _ => Except.ok (none, false)) "g" "t" []
      "delete" "p1" none "c1").1
      = Except.ok (some
        { operationType := "deleteResponse", status := some false,
          productId := none, certificateId := none, productIds := none,
          certificates := none, total := none }) := rfl

/-- C3 amended: both "delete" and "deleteProductCertificate" dispatch
to the single-certificate store delete deleteProductCertificate; the
"deleteProductCertificate" response carries {productId, certificateId,
status: bool}, but the "delete" response carries only {status: bool}
(no productId or certificateId field). -/
theorem dispatcher_delete_dispatch
    (verify : String → Except Unit (Option String × Bool))
    (g t : String) (st : Store) (pid : String) (file : Option String)
    (cid : String) :
    handleRequest verify g t st "delete" pid file cid
      = (Except.ok (some
          { operationType := "deleteResponse"
            status := some (deleteProductCertificate st (JsId.str pid) (JsId.str cid)).1 }),
         (deleteProductCertificate st (JsId.str pid) (JsId.str cid)).2) ∧
    handleRequest verify g t st "deleteProductCertificate" pid file cid
      = (Except.ok (some
          { operationType := "deleteProductCertificateResponse"
            productId := some pid
            certificateId := some cid
            status := some (deleteProductCertificate st (JsId.str pid) (JsId.str cid)).1 }),
         (deleteProductCertificate st (JsId.str pid) (JsId.str cid)).2) :=
  ⟨rfl, rfl⟩

/-- C8: a request whose operationType is none of the five recognized
operations falls through the dispatcher's switch: handleRequest
produces no response value at all (the function returns undefined) and
leaves the store untouched. -/
theorem dispatcher_unknown_no_response
    (verify : String → Except Unit (Option String × Bool))
    (g t : String) (st : Store) (rt pid : String) (file : Option String)
    (cid : String) :
    rt ≠ "upload" → rt ≠ "delete" → rt ≠ "deleteProductCertificate" →
    rt ≠ "list" → rt ≠ "listProductCertificates" →
      handleRequest verify g t st rt pid file cid = (Except.ok none, st) := by
  intro h1 h2 h3 h4 h5
  simp [handleRequest, h1, h2, h3, h4, h5]

/-- Witness for C8 at the concrete unrecognized operation
"frobnicate". -/
theorem dispatcher_unknown_no_response_witness :
    handleRequest (fun _ => Except.ok (none, false)) "g" "t" []
      "frobnicate" "p" none "c" = (Except.ok none, []) :=
  dispatcher_unknown_no_response _ "g" "t" [] "frobnicate" "p" none "c"
    (by decide) (by decide) (by decide) (by decide) (by decide)

/-- C5: no store operation leaves behind a product document with an
empty certificates array — upload, product-level delete and single-
certificate delete all preserve the nonempty invariant — and deleting
the only certificate of a product removes the product document
entirely, after which listProductCertificates is empty and the
productId no longer occurs in listCertificates. -/
theorem store_nonempty_invariant :
    (∀ (verify : String → Except Unit (Option String × Bool))
        (certId now : String) (st : Store) (pid : JsId)
        (file : Option String) (cid : JsId),
      nonemptyInv st →
        nonemptyInv (uploadCertificate verify certId now st pid file cid).2.1) ∧
    (∀ (st : Store) (pid : JsId),
      nonemptyInv st → nonemptyInv (deleteCertificate st pid).2) ∧
    (∀ (st : Store) (pid cid : JsId),
      nonemptyInv st → nonemptyInv (deleteProductCertificate st pid cid).2) ∧
    (∀ (st : Store) (pid cid : JsId) (ex : Product) (c : CertMeta),
      keyInv st → mapGet st (jsIdString pid) = some ex →
      ex.certificates = [c] → c.id = jsIdString cid →
        (deleteProductCertificate st pid cid).1 = true ∧
        listProductCertificates (deleteProductCertificate st pid cid).2 pid = [] ∧
        jsIdString pid ∉ listCertificates (deleteProductCertificate st pid cid).2) := by
  refine ⟨?_, ?_, ?_, ?_⟩
  · intro verify certId now st pid file cid hinv
    cases hver : verify (jsIdString cid) with
    | error e => simpa [uploadCertificate, hver] using hinv
    | ok p =>
      obtain ⟨vu, b⟩ := p
      cases b with
      | false => simpa [uploadCertificate, hver] using hinv
      | true =>
        simp only [uploadCertificate, hver, Bool.not_true, Bool.false_eq_true,
          if_false]
        intro e he
        rcases mem_mapSet_elim he with he | he
        · subst he
          simp
        · exact hinv e he
  · intro st pid hinv e he
    exact hinv e (mem_mapDelete_elim he).1
  · intro st pid cid hinv
    cases hget : mapGet st (jsIdString pid) with
    | none => simpa [deleteProductCertificate, hget] using hinv
    | some ex =>
      cases hfind : ex.certificates.find? (fun c => c.id == jsIdString cid) with
      | none => simpa [deleteProductCertificate, hget, hfind] using hinv
      | some c =>
        simp only [deleteProductCertificate, hget, hfind]
        by_cases hlen :
            (ex.certificates.filter (fun c => !(c.id == jsIdString cid))).length > 0
        · rw [if_pos hlen]
          intro e he
          rcases mem_mapSet_elim he with he | he
          · subst he
            intro hnil
            dsimp only at hnil
            rw [hnil] at hlen
            simp at hlen
          · exact hinv e he
        · rw [if_neg hlen]
          intro e he
          exact hinv e (mem_mapDelete_elim he).1
  · intro st pid cid ex c hkey hget hcerts hid
    have hfind : ex.certificates.find? (fun c' => c'.id == jsIdString cid) = some c := by
      rw [hcerts]
      exact List.find?_cons_of_pos _ (by simp [hid])
    have hfilter : ex.certificates.filter (fun c' => !(c'.id == jsIdString cid)) = [] := by
      rw [hcerts]
      simp [List.filter_cons, hid]
    have hdel : deleteProductCertificate st pid cid
        = (true, mapDelete st (jsIdString pid)) := by
      simp only [deleteProductCertificate, hget, hfind, hfilter]
      simp
    refine ⟨by rw [hdel], ?_, ?_⟩
    · rw [hdel]
      simp [listProductCertificates, mapGet_mapDelete_self]
    · rw [hdel]
      intro hmem
      obtain ⟨e, he, heq⟩ := List.mem_map.mp hmem
      have h2 := mem_mapDelete_elim he
      have h3 := hkey e h2.1
      rw [h3] at heq
      exact h2.2 heq

/-- A concrete stored certificate and store used to instantiate the
invariant theorems. -/
def sampleCert : CertMeta :=
  { id := "c1"
    bucketPath := "mock://certificates/certificates/p1_c1.pdf"
    uploadedAt := "2025-10-12T00:00:00.000Z"
    verified := true
    validUntil := some "2999-01-01" }

/-- A store holding product p1 with the single certificate c1. -/
def sampleStore : Store :=
  [("p1", { productId := "p1", certificates := [sampleCert] })]

/-- Witness for C5: the invariants instantiated on concrete stores,
and deleting the only certificate c1 of product p1 from sampleStore
succeeds, leaves p1 with no listed certificates, and removes p1 from
the product listing. -/
theorem store_nonempty_invariant_witness :
    nonemptyInv (uploadCertificate (fun _ => Except.ok (some "2999-01-01", true))
      "c9" "t9" [] (JsId.str "p1") (some "f") (JsId.str "X")).2.1 ∧
    nonemptyInv (deleteCertificate sampleStore (JsId.str "p1")).2 ∧
    nonemptyInv (deleteProductCertificate sampleStore (JsId.str "p1") (JsId.str "c1")).2 ∧
    (deleteProductCertificate sampleStore (JsId.str "p1") (JsId.str "c1")).1 = true ∧
    listProductCertificates
      (deleteProductCertificate sampleStore (JsId.str "p1") (JsId.str "c1")).2
      (JsId.str "p1") = [] ∧
    jsIdString (JsId.str "p1") ∉ listCertificates
      (deleteProductCertificate sampleStore (JsId.str "p1") (JsId.str "c1")).2 := by
  have hkey : keyInv sampleStore := by
    intro e he
    rcases List.mem_cons.mp he with h | h
    · subst h; rfl
    · cases h
  have hne : nonemptyInv sampleStore := by
    intro e he
    rcases List.mem_cons.mp he with h | h
    · subst h; simp [sampleCert]
    · cases h
  have h4 := store_nonempty_invariant.2.2.2 sampleStore (JsId.str "p1")
    (JsId.str "c1") { productId := "p1", certificates := [sampleCert] }
    sampleCert hkey rfl rfl rfl
  exact ⟨store_nonempty_invariant.1 _ "c9" "t9" [] (JsId.str "p1") (some "f")
      (JsId.str "X") (fun e he => absurd he (List.not_mem_nil e)),
    store_nonempty_invariant.2.1 sampleStore (JsId.str "p1") hne,
    store_nonempty_invariant.2.2.1 sampleStore (JsId.str "p1") (JsId.str "c1") hne,
    h4.1, h4.2.1, h4.2.2⟩

/-- C6: upload preserves the all-records-verified invariant (the
record it appends carries verified := true literally), and an upload
whose registry verification reports invalid, or whose verification
throws, leaves the store exactly unchanged — no record is ever
persisted with verified = false. -/
theorem upload_verified_records :
    (∀ (verify : String → Except Unit (Option String × Bool))
        (certId now : String) (st : Store) (pid : JsId)
        (file : Option String) (cid : JsId),
      verifiedInv st →
        verifiedInv (uploadCertificate verify certId now st pid file cid).2.1) ∧
    (∀ (verify : String → Except Unit (Option String × Bool))
        (certId now : String) (st : Store) (pid : JsId)
        (file : Option String) (cid : JsId) (vu : Option String),
      verify (jsIdString cid) = Except.ok (vu, false) →
        uploadCertificate verify certId now st pid file cid
          = (Except.ok false, st, [jsIdString cid])) ∧
    (∀ (verify : String → Except Unit (Option String × Bool))
        (certId now : String) (st : Store) (pid : JsId)
        (file : Option String) (cid : JsId),
      verify (jsIdString cid) = Except.error () →
        uploadCertificate verify certId now st pid file cid
          = (Except.error (), st, [jsIdString cid])) := by
  refine ⟨?_, ?_, ?_⟩
  · intro verify certId now st pid file cid hinv
    cases hver : verify (jsIdString cid) with
    | error e => simpa [uploadCertificate, hver] using hinv
    | ok p =>
      obtain ⟨vu, b⟩ := p
      cases b with
      | false => simpa [uploadCertificate, hver] using hinv
      | true =>
        cases hget : mapGet st (jsIdString pid) with
        | none =>
          simp only [uploadCertificate, hver, hget, Bool.not_true,
            Bool.false_eq_true, if_false, Option.getD_none]
          intro e he
          rcases mem_mapSet_elim he with he | he
          · subst he
            intro cc hcc
            simp at hcc
            subst hcc
            rfl
          · exact hinv e he
        | some ex =>
          simp only [uploadCertificate, hver, hget, Bool.not_true,
            Bool.false_eq_true, if_false, Option.getD_some]
          intro e he
          rcases mem_mapSet_elim he with he | he
          · subst he
            intro cc hcc
            rcases List.mem_append.mp hcc with hcc | hcc
            · exact hinv (jsIdString pid, ex) (mapGet_mem hget) cc hcc
            · simp at hcc
              subst hcc
              rfl
          · exact hinv e he
  · intro verify certId now st pid file cid vu h
    simp [uploadCertificate, h]
  · intro verify certId now st pid file cid h
    simp [uploadCertificate, h]

/-- Witness for C6: the invariant after a successful upload into the
empty store, and exact no-op results for an invalid and for a throwing
verification. -/
theorem upload_verified_records_witness :
    verifiedInv (uploadCertificate (fun _ => Except.ok (some "2999-01-01", true))
      "c9" "t9" [] (JsId.str "p1") (some "f") (JsId.str "X")).2.1 ∧
    uploadCertificate (fun _ => Except.ok (none, false)) "c9" "t9" []
      (JsId.str "p1") (some "f") (JsId.str "X") = (Except.ok false, [], ["X"]) ∧
    uploadCertificate (fun _ => Except.error ()) "c9" "t9" []
      (JsId.str "p1") (some "f") (JsId.str "X") = (Except.error (), [], ["X"]) :=
  ⟨upload_verified_records.1 _ "c9" "t9" [] (JsId.str "p1") (some "f")
      (JsId.str "X") (fun e he => absurd he (List.not_mem_nil e)),
    upload_verified_records.2.1 _ "c9" "t9" [] (JsId.str "p1") (some "f")
      (JsId.str "X") none rfl,
    upload_verified_records.2.2 _ "c9" "t9" [] (JsId.str "p1") (some "f")
      (JsId.str "X") rfl⟩

/-- C7: deleteProductCertificate returns false (leaving the store
unchanged) when the product does not exist or when it holds no
certificate with the given id, and after any successful deletion a
second call with the same ids returns false — it neither crashes (the
embedding is a total function) nor succeeds. -/
theorem delete_certificate_missing_false :
    (∀ (st : Store) (pid cid : JsId),
      mapGet st (jsIdString pid) = none →
        deleteProductCertificate st pid cid = (false, st)) ∧
    (∀ (st : Store) (pid cid : JsId) (ex : Product),
      mapGet st (jsIdString pid) = some ex →
      ex.certificates.find? (fun c => c.id == jsIdString cid) = none →
        deleteProductCertificate st pid cid = (false, st)) ∧
    (∀ (st : Store) (pid cid : JsId),
      (deleteProductCertificate st pid cid).1 = true →
        (deleteProductCertificate (deleteProductCertificate st pid cid).2
          pid cid).1 = false) := by
  refine ⟨?_, ?_, ?_⟩
  · intro st pid cid h
    simp [deleteProductCertificate, h]
  · intro st pid cid ex hget hfind
    simp [deleteProductCertificate, hget, hfind]
  · intro st pid cid h1
    cases hget : mapGet st (jsIdString pid) with
    | none => simp [deleteProductCertificate, hget] at h1
    | some ex =>
      cases hfind : ex.certificates.find? (fun c => c.id == jsIdString cid) with
      | none => simp [deleteProductCertificate, hget, hfind] at h1
      | some c =>
        by_cases hlen :
            (ex.certificates.filter (fun c => !(c.id == jsIdString cid))).length > 0
        · have hres : deleteProductCertificate st pid cid
              = (true, mapSet st (jsIdString pid)
                  { ex with certificates :=
                      ex.certificates.filter (fun c => !(c.id == jsIdString cid)) }) := by
            simp only [deleteProductCertificate, hget, hfind]
            rw [if_pos hlen]
          have hfind2 : (ex.certificates.filter
              (fun c => !(c.id == jsIdString cid))).find?
              (fun c => c.id == jsIdString cid) = none :=
            find?_filter_id_none _ _
          rw [hres]
          simp only [deleteProductCertificate, mapGet_mapSet_self]
          rw [hfind2]
        · have hres : deleteProductCertificate st pid cid
              = (true, mapDelete st (jsIdString pid)) := by
            simp only [deleteProductCertificate, hget, hfind]
            rw [if_neg hlen]
          rw [hres]
          simp [deleteProductCertificate, mapGet_mapDelete_self]

/-- Witness for C7: deleting from the empty store returns false,
deleting a certificate id that p1 does not hold returns false, and the
second deletion of c1 from sampleStore returns false after the first
succeeded. -/
theorem delete_certificate_missing_false_witness :
    deleteProductCertificate [] (JsId.str "p1") (JsId.str "c1") = (false, []) ∧
    deleteProductCertificate sampleStore (JsId.str "p1") (JsId.str "zz")
      = (false, sampleStore) ∧
    (deleteProductCertificate
      (deleteProductCertificate sampleStore (JsId.str "p1") (JsId.str "c1")).2
      (JsId.str "p1") (JsId.str "c1")).1 = false :=
  ⟨delete_certificate_missing_false.1 [] (JsId.str "p1") (JsId.str "c1") rfl,
    delete_certificate_missing_false.2.1 sampleStore (JsId.str "p1")
      (JsId.str "zz") { productId := "p1", certificates := [sampleCert] } rfl
      (by decide),
    delete_certificate_missing_false.2.2 sampleStore (JsId.str "p1")
      (JsId.str "c1") (by decide)⟩

/-- C9: for a present (non-empty) productId path segment, the GET
/certificates/:productId route answers 200 with body {certificates}
when the product's certificate list is non-empty and 404 with body
{certificates: []} when it is empty; and for an unknown productId
listProductCertificates returns the empty list rather than an error,
so the route answers 404 there. -/
theorem http_get_product_route_spec (st : Store) (pid : String)
    (h : pid ≠ "") :
    (listProductCertificates st (JsId.str pid) ≠ [] →
      httpGetProductRoute st pid
        = (200, some (listProductCertificates st (JsId.str pid)))) ∧
    (listProductCertificates st (JsId.str pid) = [] →
      httpGetProductRoute st pid = (404, some [])) ∧
    (mapGet st pid = none → listProductCertificates st (JsId.str pid) = []) := by
  refine ⟨?_, ?_, ?_⟩
  · intro hne
    simp only [httpGetProductRoute]
    rw [if_neg h, if_pos (fun h0 => hne (List.length_eq_zero.mp h0))]
  · intro he
    simp [httpGetProductRoute, h, he]
  · intro hn
    simp [listProductCertificates, jsIdString, hn]

/-- Witness for C9: on sampleStore, product p1 answers 200 with its one
certificate and the unknown product zz answers 404 with an empty
certificates body. -/
theorem http_get_product_route_spec_witness :
    httpGetProductRoute sampleStore "p1" = (200, some [sampleCert]) ∧
    httpGetProductRoute sampleStore "zz" = (404, some []) :=
  ⟨(http_get_product_route_spec sampleStore "p1" (by decide)).1 (by decide),
   (http_get_product_route_spec sampleStore "zz" (by decide)).2.1 (by decide)⟩

/-- C10: every store operation coerces its identifier arguments with
String(x) before use, so passing the integer n is observably identical
to passing the string String(n) — for the productId of upload, list,
product-delete and single-certificate delete, for upload's
certificateId, and for the certificate id of the single-certificate
delete — same return value, same resulting store, same registry
queries. -/
theorem id_coercion_equivalence (n : Int)
    (verify : String → Except Unit (Option String × Bool))
    (certId now : String) (st : Store) (file : Option String)
    (pid cid : JsId) :
    uploadCertificate verify certId now st (JsId.num n) file cid
      = uploadCertificate verify certId now st (JsId.str (toString n)) file cid ∧
    uploadCertificate verify certId now st pid file (JsId.num n)
      = uploadCertificate verify certId now st pid file (JsId.str (toString n)) ∧
    listProductCertificates st (JsId.num n)
      = listProductCertificates st (JsId.str (toString n)) ∧
    deleteCertificate st (JsId.num n)
      = deleteCertificate st (JsId.str (toString n)) ∧
    deleteProductCertificate st (JsId.num n) cid
      = deleteProductCertificate st (JsId.str (toString n)) cid ∧
    deleteProductCertificate st pid (JsId.num n)
      = deleteProductCertificate st pid (JsId.str (toString n)) :=
  ⟨rfl, rfl, rfl, rfl, rfl, rfl⟩
